import Mathlib

/-!
Shallow embedding of `orchestrator/augmentor/extract_env.py` (functions
`extract_env` and `find_central_atom`) and proofs about the claims of the
specification.

Modelling conventions:
* Machine floats are modelled by `ℚ` with exact arithmetic; the source's
  equality and ordering comparisons are exact, so rational arithmetic mirrors
  them faithfully for every representable input.
* A Euclidean norm comparison `‖d‖ ≤ r` is modelled without the (irrational)
  square root as `0 ≤ r ∧ d·d ≤ r²`, which is equivalent over the reals.
* `ase.Atoms`, its `NeighborList` and `cellpar()` are external collaborators:
  the neighbor query is passed in as a function `nl : Nat → List NeighborPair`
  (the result of `nl.get_neighbors` per center index, lines 76-82 of the
  source), and the three cell-parameter lengths computed by
  `original_atoms.cell.cellpar()[0:3]` are carried as the `cellpar` field of
  the source structure (they are square roots, irrational in general, and the
  code only ever compares against them).
* Python dictionaries are modelled as association lists with unique keys,
  with insertion preserving the position of an existing key (Python dict
  update semantics).
* Python exceptions are modelled with `Except`: `ExtractError` has one
  constructor per distinct failure kind observable in `extract_env`.
-/

/-- A 3-vector of rationals (a Cartesian position or displacement). -/
abbrev Vec3 : Type := ℚ × ℚ × ℚ

/-- The zero 3-vector. -/
def vzero : Vec3 := (0, 0, 0)

/-- A 3×3 matrix given by rows (a lattice-vector matrix: each row is one
lattice vector, as in `ase`). -/
structure Mat3 where
  r0 : Vec3
  r1 : Vec3
  r2 : Vec3
deriving DecidableEq, Repr

/-- An integer periodic-image offset, `offsets` entry of
`nl.get_neighbors` (line 82). -/
abbrev Offset3 : Type := ℤ × ℤ × ℤ

/-- One `(neighbor index, periodic-image offset)` pair as returned by the
ase neighbor list. -/
abbrev NeighborPair : Type := Nat × Offset3

/-- `offset @ original_atoms.get_cell()` (line 89): the integer row vector
times the lattice matrix, i.e. the lattice translation of the image. -/
def offsetTimesCell (o : Offset3) (m : Mat3) : Vec3 :=
  ((o.1 : ℚ) * m.r0.1 + (o.2.1 : ℚ) * m.r1.1 + (o.2.2 : ℚ) * m.r2.1,
   (o.1 : ℚ) * m.r0.2.1 + (o.2.1 : ℚ) * m.r1.2.1 + (o.2.2 : ℚ) * m.r2.2.1,
   (o.1 : ℚ) * m.r0.2.2 + (o.2.1 : ℚ) * m.r1.2.2 + (o.2.2 : ℚ) * m.r2.2.2)

/-- The two accepted forms of `new_cell` (line 39: `new_cell.size == 3`
selects the 3-vector form, otherwise the full 3×3 matrix form). -/
inductive NewCell where
  | vec (v : Vec3)
  | mat (m : Mat3)
deriving DecidableEq, Repr

/-- A value of the `Atoms.info` dictionary: either an ordinary value or a
nested string-keyed dictionary (the metadata sub-dictionary convention). -/
inductive InfoVal where
  | val (q : ℚ)
  | dict (d : List (String × ℚ))
deriving DecidableEq, Repr

/-- The distinct failure kinds observable in `extract_env`:
* `ambiguousTruthValue` — numpy's `ValueError: The truth value of an array
  with more than one element is ambiguous`, raised when `if` is applied to a
  multi-element boolean array (line 43);
* `invalidCellShape` — the `ValueError`s of the explicit shape checks
  (lines 44 and 54: non-orthorhombic / non-cubic new cell);
* `cellTooSmall` — `CellTooSmallError` (lines 59, 62, 66);
* `keyError` — Python `KeyError` from a missing dictionary key
  (`get_array` at line 79, `info[METADATA_KEY]` at line 146);
* `typeError` — Python `TypeError` from `key in value` when the value held
  under the reserved metadata key is not a container (line 146). -/
inductive ExtractError where
  | ambiguousTruthValue
  | invalidCellShape
  | cellTooSmall
  | keyError
  | typeError
deriving DecidableEq, Repr

/-- The source configuration (`original_atoms : ase.Atoms`).  `cellpar` is
the collaborator-computed `cell.cellpar()[0:3]` (the lengths of the three
lattice vectors); per-atom auxiliary arrays carry one rational per atom. -/
structure SourceAtoms where
  positions : List Vec3
  symbols : List String
  cell : Mat3
  cellpar : Vec3
  arrays : List (String × List ℚ)
  info : List (String × InfoVal)
deriving DecidableEq, Repr

/-- An extracted configuration (the `ase.Atoms` built at lines 132-154):
`fixedIndices` is the index list of the attached `FixAtoms` constraint. -/
structure NewAtoms where
  symbols : List String
  positions : List Vec3
  cell : NewCell
  pbc : Bool
  arrays : List (String × List ℚ)
  info : List (String × InfoVal)
  fixedIndices : List Nat
deriving DecidableEq, Repr

/-- The reserved metadata key imported from `orchestrator.utils.data_standard`
(that module is not part of the sources under review; the claims never depend
on the concrete string, only on it being one fixed reserved key). -/
def METADATA_KEY : String := "metadata"

/-- Lookup in an association list (Python `d[k]` / `k in d`, first match). -/
def alookup {α : Type} (k : String) : List (String × α) → Option α
  | [] => none
  | (k1, v1) :: t => if k1 = k then some v1 else alookup k t

/-- Python dictionary assignment `d[k] = v`: update in place if the key is
present (keeping its position), otherwise append at the end. -/
def aset {α : Type} (k : String) (v : α) : List (String × α) → List (String × α)
  | [] => [(k, v)]
  | (k1, v1) :: t => if k1 = k then (k1, v) :: t else (k1, v1) :: aset k v t

/-- `needle` starts `hay` (helper for substring containment). -/
def chStarts : List Char → List Char → Bool
  | [], _ => true
  | _ :: _, [] => false
  | a :: as, b :: bs => a = b && chStarts as bs

/-- `needle` occurs somewhere in `hay` (helper for substring containment). -/
def chSub (n : List Char) : List Char → Bool
  | [] => chStarts n []
  | h :: t => chStarts n (h :: t) || chSub n t

/-- Python substring containment `needle in hay` for strings. -/
def strIn (needle hay : String) : Bool :=
  chSub needle.toList hay.toList

/-- Split a character list at its LAST underscore: returns the part before
it and the part after it, or nothing when no underscore occurs (helper for
Python `rsplit('_', 1)`). -/
def lastUnderscoreSplit : List Char → Option (List Char × List Char)
  | [] => none
  | c :: t =>
    match lastUnderscoreSplit t with
    | some (a, b) => some (c :: a, b)
    | none => if c = '_' then some ([], t) else none

/-- `x.rsplit('_', 1)[0]` (line 142): the key with its trailing
`_<suffix>` segment removed; a key without `_` is returned unchanged. -/
def rsplitBase (s : String) : String :=
  match lastUnderscoreSplit s.toList with
  | some (a, _) => String.mk a
  | none => s

/-- numpy truthiness of a boolean array: a one-element array converts to its
element; any other size raises `ValueError` when used in `if` ("the truth
value of an array with more than one element is ambiguous"). -/
def numpyIf : List Bool → Except ExtractError Bool
  | [b] => .ok b
  | _ => .error .ambiguousTruthValue

/-- The six off-diagonal entries of the matrix, each tested `≠ 0`: the
boolean array `~(new_cell[np.where(~np.eye(3, dtype=bool))] == 0)` of
line 43, in numpy's row-major order of the off-diagonal positions. -/
def offDiagNonzeroFlags (m : Mat3) : List Bool :=
  [!decide (m.r0.2.1 = 0), !decide (m.r0.2.2 = 0),
   !decide (m.r1.1 = 0), !decide (m.r1.2.2 = 0),
   !decide (m.r2.1 = 0), !decide (m.r2.2.1 = 0)]

/-- Lines 39-48: derive `cell_norms` from `new_cell`.  The 3-vector form is
used directly (line 40).  For the matrix form, line 43 applies `if` to the
six-element boolean array `offDiagNonzeroFlags`, so numpy raises the
ambiguous-truth-value `ValueError` for every 3×3 input and lines 47-48 (the
row norms) are dead code; see `stage1_mat` below.  The value returned in
that unreachable branch is arbitrary (the source would compute the row
Euclidean norms there, which are irrational in general). -/
def stage1 : NewCell → Except ExtractError Vec3
  | .vec v => .ok v
  | .mat m =>
    match numpyIf (offDiagNonzeroFlags m) with
    | .error e => .error e
    | .ok true => .error .invalidCellShape
    | .ok false => .ok vzero

/-- `np.max` of the three components (lines 41 and 48). -/
def max3 (v : Vec3) : ℚ :=
  max v.1 (max v.2.1 v.2.2)

/-- Line 79: `{k: original_atoms.get_array(k) for k in keys_to_transfer}`;
`get_array` raises `KeyError` for an unknown array name. -/
def getKeyArrays (keys : List String) (arrays : List (String × List ℚ)) :
    Except ExtractError (List (String × List ℚ)) :=
  match keys with
  | [] => .ok []
  | k :: rest =>
    match alookup k arrays with
    | none => .error .keyError
    | some a =>
      match getKeyArrays rest arrays with
      | .error e => .error e
      | .ok l => .ok ((k, a) :: l)

/-- Lines 68-69: a bare integer index is wrapped into a one-element list. -/
inductive AtomInds where
  | single (i : Nat)
  | list (l : List Nat)
deriving DecidableEq, Repr

/-- The `isinstance(atom_inds, int)` normalization of lines 68-69. -/
def normalizeInds : AtomInds → List Nat
  | .single i => [i]
  | .list l => l

/-- Lines 88-90: displacement of neighbor pair `p` from the center atom,
`positions[i] + offset @ cell - positions[atom_ind]`. -/
def dispOf (src : SourceAtoms) (center : Nat) (p : NeighborPair) : Vec3 :=
  (src.positions.getD p.1 vzero + offsetTimesCell p.2 src.cell)
    - src.positions.getD center vzero

/-- Line 98: all three displacement components have absolute value at most
`max_cell_len / 2` (membership in the axis-aligned cube). -/
def inCube (half : ℚ) (d : Vec3) : Bool :=
  decide (|d.1| ≤ half ∧ |d.2.1| ≤ half ∧ |d.2.2| ≤ half)

/-- Line 108: `np.linalg.norm(d, 2) <= rc`.  Over the reals this holds iff
`0 ≤ rc` and the squared norm is at most `rc²`, which avoids the square
root. -/
def normLe (rc : ℚ) (d : Vec3) : Bool :=
  decide (0 ≤ rc ∧ d.1 * d.1 + d.2.1 * d.2.1 + d.2.2 * d.2.2 ≤ rc * rc)

/-- Lines 140-150, the scan of one base name over the top-level `info`
dictionary: every key containing the base name as a substring has its entry
copied into the accumulator (Python dict assignment). -/
def infoScanOne (ok : String) : List (String × InfoVal) →
    List (String × InfoVal) → List (String × InfoVal)
  | [], acc => acc
  | (ik, iv) :: rest, acc =>
    infoScanOne ok rest (if strIn ok ik then aset ik iv acc else acc)

/-- Lines 142-148, iterated over the derived base names: per base name,
scan the top-level `info`, then access `info[METADATA_KEY]` (KeyError if
absent, TypeError if not a dictionary) and copy the entry stored under the
base name, when present, into the new metadata dictionary. -/
def buildGo (info : List (String × InfoVal)) :
    List String → List (String × InfoVal) → List (String × ℚ) →
    Except ExtractError (List (String × InfoVal) × List (String × ℚ))
  | [], d1, d2 => .ok (d1, d2)
  | ok :: rest, d1, d2 =>
    let d1x := infoScanOne ok info d1
    match alookup METADATA_KEY info with
    | none => .error .keyError
    | some (.val _) => .error .typeError
    | some (.dict nd) =>
      match alookup ok nd with
      | some v => buildGo info rest d1x (aset ok v d2)
      | none => buildGo info rest d1x d2

/-- Lines 139-148: build `new_info_dict` and `new_metadata_dict` from the
requested array keys' base names (`x.rsplit('_', 1)[0]`). -/
def buildInfoDicts (keys : List String) (info : List (String × InfoVal)) :
    Except ExtractError (List (String × InfoVal) × List (String × ℚ)) :=
  buildGo info (keys.map rsplitBase) [] []

/-- Lines 81-156, the body of the per-center loop: compute all neighbor
displacements, apply the cube filter then the sphere filter (each realized
exactly as in the source, by an index list obtained from `np.where` and
positional selection), choose the output set by `extract_cube`, shift by the
box center, and build the new structure with its transferred arrays,
filtered info dictionaries and `FixAtoms` constraint. -/
def extractOne (src : SourceAtoms) (rc : ℚ) (cell_norms : Vec3)
    (max_cell_len : ℚ) (new_cell : NewCell) (extract_cube : Bool)
    (keys : List String) (key_arrays : List (String × List ℚ))
    (pairs : List NeighborPair) (center : Nat) :
    Except ExtractError NewAtoms :=
  let neigh_disp := pairs.map (dispOf src center)
  let neigh_symbols := pairs.map (fun p => src.symbols.getD p.1 "")
  let neigh_arrays := key_arrays.map
    (fun ka => (ka.1, pairs.map (fun p => ka.2.getD p.1 (0 : ℚ))))
  let ind_in_cube := (List.range neigh_disp.length).filter
    (fun j => inCube (max_cell_len / 2) (neigh_disp.getD j vzero))
  let cube_disp := ind_in_cube.map (fun j => neigh_disp.getD j vzero)
  let cube_symbols := ind_in_cube.map (fun j => neigh_symbols.getD j "")
  let cube_arrays := neigh_arrays.map
    (fun ka => (ka.1, ind_in_cube.map (fun j => ka.2.getD j (0 : ℚ))))
  let ind_in_rc := (List.range cube_disp.length).filter
    (fun j => normLe rc (cube_disp.getD j vzero))
  let sphere_disp := ind_in_rc.map (fun j => cube_disp.getD j vzero)
  let sphere_symbols := ind_in_rc.map (fun j => cube_symbols.getD j "")
  let sphere_arrays := cube_arrays.map
    (fun ka => (ka.1, ind_in_rc.map (fun j => ka.2.getD j (0 : ℚ))))
  let new_pos0 := if extract_cube then cube_disp else sphere_disp
  let new_symbols := if extract_cube then cube_symbols else sphere_symbols
  let ind_fix := if extract_cube then ind_in_rc else List.range new_pos0.length
  let new_arrays := if extract_cube then cube_arrays else sphere_arrays
  let box_center : Vec3 :=
    (cell_norms.1 / 2, cell_norms.2.1 / 2, cell_norms.2.2 / 2)
  let new_pos := new_pos0.map (fun d => d + box_center)
  match buildInfoDicts keys src.info with
  | .error e => .error e
  | .ok (d1, d2) =>
    .ok { symbols := new_symbols, positions := new_pos, cell := new_cell,
          pbc := true, arrays := new_arrays,
          info := aset METADATA_KEY (.dict d2) d1,
          fixedIndices := ind_fix }

/-- Lines 39-79 of `extract_env`: cell-shape validation, the three size
checks, index normalization and the `key_arrays` comprehension; returns all
data the per-center loop depends on. -/
def validatedParams (src : SourceAtoms) (rc : ℚ) (new_cell : NewCell)
    (keys_to_transfer : Option (List String)) :
    Except ExtractError (Vec3 × ℚ × List String × List (String × List ℚ)) :=
  match stage1 new_cell with
  | .error e => .error e
  | .ok cell_norms =>
    let max_cell_len := max3 cell_norms
    let keys := keys_to_transfer.getD []
    if ¬(cell_norms.1 = cell_norms.2.1 ∧ cell_norms.2.1 = cell_norms.2.2) then
      .error .invalidCellShape
    else if max3 cell_norms > src.cellpar.1 ∨ max3 cell_norms > src.cellpar.2.1
        ∨ max3 cell_norms > src.cellpar.2.2 then
      .error .cellTooSmall
    else if max3 cell_norms < rc then
      .error .cellTooSmall
    else if rc * 2 > max3 cell_norms then
      .error .cellTooSmall
    else
      match getKeyArrays keys src.arrays with
      | .error e => .error e
      | .ok key_arrays => .ok (cell_norms, max_cell_len, keys, key_arrays)

/-- Lines 81-158: the loop appending one extracted structure per requested
center index; any exception aborts the whole call. -/
def extractLoop (f : Nat → Except ExtractError NewAtoms) :
    List Nat → Except ExtractError (List NewAtoms)
  | [] => .ok []
  | c :: rest =>
    match f c with
    | .error e => .error e
    | .ok st =>
      match extractLoop f rest with
      | .error e => .error e
      | .ok sts => .ok (st :: sts)

/-- The whole of `extract_env` (lines 9-158).  The constructed ase
`NeighborList` is an external collaborator; its per-center query
`nl.get_neighbors` is passed in as `nl`. -/
def extract_env (src : SourceAtoms) (rc : ℚ) (atom_inds : AtomInds)
    (new_cell : NewCell) (extract_cube : Bool)
    (keys_to_transfer : Option (List String))
    (nl : Nat → List NeighborPair) : Except ExtractError (List NewAtoms) :=
  match validatedParams src rc new_cell keys_to_transfer with
  | .error e => .error e
  | .ok (cell_norms, max_cell_len, keys, key_arrays) =>
    extractLoop
      (fun c => extractOne src rc cell_norms max_cell_len new_cell
        extract_cube keys key_arrays (nl c) c)
      (normalizeInds atom_inds)

/-- Lines 177-182: the inner loop of `find_central_atom` sets the flag per
coordinate and breaks on the first mismatch, which for a 3-component
position is exactly "all three coordinates equal `half_length`". -/
def coordsAllHalf (half : ℚ) (p : Vec3) : Bool :=
  decide (p.1 = half ∧ p.2.1 = half ∧ p.2.2 = half)

/-- The `for i, atom_pos in enumerate(config.positions)` loop of
`find_central_atom` (lines 176-184), carrying the running index; falling off
the end returns Python's implicit `None`. -/
def findCentralGo (half : ℚ) : List Vec3 → Nat → Option Nat
  | [], _ => none
  | p :: rest, i =>
    if coordsAllHalf half p then some i else findCentralGo half rest (i + 1)

/-- `find_central_atom` (lines 161-185): index of the first atom whose three
position components all equal `side_size / 2`, or `None`. -/
def find_central_atom (config : NewAtoms) (side_size : ℚ) : Option Nat :=
  findCentralGo (side_size / 2) config.positions 0


/-! ### The filter-level view of the per-center extraction -/

/-- Cube-filter predicate of line 98, viewed on a neighbor pair through its
displacement. -/
def cubeKeep (src : SourceAtoms) (center : Nat) (mx : ℚ) (p : NeighborPair) :
    Bool :=
  inCube (mx / 2) (dispOf src center p)

/-- Sphere-filter predicate of line 108, viewed on a neighbor pair. -/
def rcKeep (src : SourceAtoms) (center : Nat) (rc : ℚ) (p : NeighborPair) :
    Bool :=
  normLe rc (dispOf src center p)

/-- The neighbor pairs that survive the cube filter and, in sphere mode
(`extract_cube = false`), also the sphere filter; `extractOne_ok_fields`
proves that the positional-index selections of lines 96-127 emit exactly the
data of these pairs, in this order. -/
def emittedPairs (src : SourceAtoms) (rc mx : ℚ) (extract_cube : Bool)
    (center : Nat) (pairs : List NeighborPair) : List NeighborPair :=
  let cp := pairs.filter (cubeKeep src center mx)
  if extract_cube then cp else cp.filter (rcKeep src center rc)

/-- `box_center` of line 129 for the derived cell norms. -/
def boxCenter (ns : Vec3) : Vec3 := (ns.1 / 2, ns.2.1 / 2, ns.2.2 / 2)

/-! ### Concrete fixtures used by witnesses and counterexamples -/

/-- A 10 Å cubic source with one atom at the origin (the concrete scenario
of the spec's testable properties). -/
def srcOneAtom : SourceAtoms :=
  { positions := [(0, 0, 0)], symbols := ["Al"],
    cell := ⟨(10, 0, 0), (0, 10, 0), (0, 0, 10)⟩, cellpar := (10, 10, 10),
    arrays := [("f_1", [7])], info := [(METADATA_KEY, .dict [("f", 3)])] }

/-- Neighbor query for `srcOneAtom`: the self pair with zero offset and two
periodic images (whose displacements have magnitude 10 and are discarded by
the cube filter for a target cell of side 6). -/
def nlOneAtom : Nat → List NeighborPair :=
  fun _ => [(0, (0, 0, 0)), (0, (1, 0, 0)), (0, (0, -1, 0))]

/-- A small source whose cell parameters are (2,2,2). -/
def srcSmall : SourceAtoms :=
  { positions := [(0, 0, 0)], symbols := ["Al"],
    cell := ⟨(2, 0, 0), (0, 2, 0), (0, 0, 2)⟩, cellpar := (2, 2, 2),
    arrays := [], info := [(METADATA_KEY, .dict [])] }

/-- A two-atom source for the multi-index claim. -/
def srcTwoAtoms : SourceAtoms :=
  { positions := [(0, 0, 0), (5, 5, 5)], symbols := ["Al", "Cu"],
    cell := ⟨(10, 0, 0), (0, 10, 0), (0, 0, 10)⟩, cellpar := (10, 10, 10),
    arrays := [("f_1", [7, 8])], info := [(METADATA_KEY, .dict [])] }

/-- Neighbor query for `srcTwoAtoms`: each center sees only its own self
pair. -/
def nlSelfOnly : Nat → List NeighborPair :=
  fun c => [(c, (0, 0, 0))]

/-- A source whose info dictionary lacks the reserved metadata key. -/
def srcNoMeta : SourceAtoms :=
  { positions := [(0, 0, 0)], symbols := ["Al"],
    cell := ⟨(10, 0, 0), (0, 10, 0), (0, 0, 10)⟩, cellpar := (10, 10, 10),
    arrays := [("f_1", [7])], info := [] }

/-- An extracted-structure value with no atom at the cell center. -/
def cfgNoCenter : NewAtoms :=
  { symbols := ["Al", "Al"], positions := [(1, 1, 1), (2, 3, 3)],
    cell := .vec (6, 6, 6), pbc := true, arrays := [], info := [],
    fixedIndices := [] }

/-- The extracted structure produced in the spec's concrete scenario
(source `srcOneAtom`, rc 2, target side 6, sphere mode, keys ["f_1"]). -/
def stOneAtom : NewAtoms :=
  { symbols := ["Al"], positions := [(3, 3, 3)], cell := .vec (6, 6, 6),
    pbc := true, arrays := [("f_1", [7])],
    info := [(METADATA_KEY, .dict [("f", 3)])], fixedIndices := [0] }

/-- First structure extracted from `srcTwoAtoms` (center 0). -/
def stTwoA : NewAtoms :=
  { symbols := ["Al"], positions := [(3, 3, 3)], cell := .vec (6, 6, 6),
    pbc := true, arrays := [], info := [(METADATA_KEY, .dict [])],
    fixedIndices := [0] }

/-- Second structure extracted from `srcTwoAtoms` (center 1). -/
def stTwoB : NewAtoms :=
  { symbols := ["Cu"], positions := [(3, 3, 3)], cell := .vec (6, 6, 6),
    pbc := true, arrays := [], info := [(METADATA_KEY, .dict [])],
    fixedIndices := [0] }

/-- The nested-dictionary scan as the specification words it: copy every
nested entry whose key contains the base name as a substring (compare with
the exact-membership lookup the source performs at line 146). -/
def specNestedScan (bases : List String) (nested : List (String × ℚ)) :
    List (String × ℚ) :=
  nested.filter (fun kv => bases.any (fun b => strIn b kv.1))

deriving instance DecidableEq for Except


/-! ### Helper lemmas about the dictionary and list operations -/

theorem alookup_aset_self {α : Type} (k : String) (v : α)
    (l : List (String × α)) : alookup k (aset k v l) = some v := by
  induction l with
  | nil => simp [aset, alookup]
  | cons h t ih =>
    obtain ⟨k1, v1⟩ := h
    by_cases hk : k1 = k
    · simp [aset, hk, alookup]
    · simp [aset, hk, alookup, ih]

theorem alookup_aset_ne {α : Type} {k k' : String} (v : α)
    (l : List (String × α)) (h : k' ≠ k) :
    alookup k' (aset k v l) = alookup k' l := by
  induction l with
  | nil => simp [aset, alookup, Ne.symm h]
  | cons hd t ih =>
    obtain ⟨k1, v1⟩ := hd
    by_cases hk : k1 = k
    · subst hk
      simp [aset, alookup, Ne.symm h]
    · simp only [aset, if_neg hk, alookup]
      by_cases hk' : k1 = k'
      · simp [hk']
      · simp [hk', ih]

theorem getD_map_lt {α β : Type} (l : List α) (f : α → β) (d1 : α) (d2 : β) :
    ∀ j, j < l.length → (l.map f).getD j d2 = f (l.getD j d1) := by
  induction l with
  | nil => intro j h; simp at h
  | cons a t ih =>
    intro j h
    cases j with
    | zero => simp
    | succ n =>
      simp only [List.map_cons, List.getD_cons_succ]
      exact ih n (by simpa using Nat.lt_of_succ_lt_succ h)

theorem filterOfMap {α β : Type} (f : α → β) (p : β → Bool) (l : List α) :
    (l.map f).filter p = (l.filter (fun a => p (f a))).map f := by
  induction l with
  | nil => rfl
  | cons a t ih =>
    by_cases h : p (f a) <;> simp [List.filter_cons, h, ih]

/-- The source's index-based selection idiom (`np.where` over a mapped list,
then positional selection from a parallel mapped list, lines 97-115) equals a
direct filter-then-map over the underlying list. -/
theorem selectMap {α β γ : Type} (l : List α) (f : α → β) (g : α → γ)
    (q : β → Bool) (db : β) (dg : γ) :
    ((List.range (l.map f).length).filter
        (fun j => q ((l.map f).getD j db))).map
      (fun j => (l.map g).getD j dg)
      = (l.filter (fun a => q (f a))).map g := by
  induction l with
  | nil => rfl
  | cons a t ih =>
    simp only [List.map_cons, List.length_cons, List.range_succ_eq_map,
      List.filter_cons, List.getD_cons_zero]
    by_cases h : q (f a)
    · simp only [h, if_pos, List.map_cons, List.getD_cons_zero]
      refine congrArg (g a :: ·) ?_
      rw [filterOfMap, List.map_map]
      simpa [Function.comp_def, Nat.succ_eq_add_one, List.getD_cons_succ] using ih
    · simp only [h, if_neg, Bool.false_eq_true, not_false_iff]
      rw [filterOfMap, List.map_map]
      simpa [Function.comp_def, Nat.succ_eq_add_one, List.getD_cons_succ] using ih

theorem mapCongr {α β : Type} {f g : α → β} :
    ∀ (l : List α), (∀ a ∈ l, f a = g a) → l.map f = l.map g := by
  intro l
  induction l with
  | nil => intro _; rfl
  | cons a t ih =>
    intro h
    simp only [List.map_cons]
    rw [h a (by simp), ih (fun b hb => h b (by simp [hb]))]

/-- Everything the claims need about a successful `extractOne`: each output
field equals the corresponding data of `emittedPairs`, the constraint index
list is as built at lines 118-127, and the info dictionary is the one of
lines 139-150. -/
theorem extractOne_ok_fields (src : SourceAtoms) (rc : ℚ) (ns : Vec3)
    (mx : ℚ) (cell : NewCell) (cube : Bool) (keys : List String)
    (karr : List (String × List ℚ)) (pairs : List NeighborPair) (c : Nat)
    (st : NewAtoms)
    (h : extractOne src rc ns mx cell cube keys karr pairs c = .ok st) :
    st.positions = (emittedPairs src rc mx cube c pairs).map
        (fun p => dispOf src c p + boxCenter ns) ∧
    st.symbols = (emittedPairs src rc mx cube c pairs).map
        (fun p => src.symbols.getD p.1 "") ∧
    st.arrays = karr.map (fun ka =>
        (ka.1, (emittedPairs src rc mx cube c pairs).map
          (fun p => ka.2.getD p.1 (0 : ℚ)))) ∧
    st.cell = cell ∧
    (∃ d1 d2, buildInfoDicts keys src.info = .ok (d1, d2) ∧
      st.info = aset METADATA_KEY (.dict d2) d1) ∧
    st.fixedIndices = (if cube then
        (List.range (pairs.filter (cubeKeep src c mx)).length).filter
          (fun j => normLe rc
            (((pairs.filter (cubeKeep src c mx)).map
              (dispOf src c)).getD j vzero))
      else List.range (emittedPairs src rc mx cube c pairs).length) := by
  have hcube : ∀ {γ : Type} (g : NeighborPair → γ) (dg : γ),
      ((List.range (pairs.map (dispOf src c)).length).filter
        (fun j => inCube (mx / 2) ((pairs.map (dispOf src c)).getD j vzero))).map
        (fun j => (pairs.map g).getD j dg)
      = (pairs.filter (cubeKeep src c mx)).map g := by
    intro γ g dg
    exact selectMap pairs (dispOf src c) g (fun d => inCube (mx / 2) d) vzero dg
  have hsphere : ∀ {γ : Type} (g : NeighborPair → γ) (dg : γ),
      ((List.range ((pairs.filter (cubeKeep src c mx)).map
          (dispOf src c)).length).filter
        (fun j => normLe rc (((pairs.filter (cubeKeep src c mx)).map
          (dispOf src c)).getD j vzero))).map
        (fun j => ((pairs.filter (cubeKeep src c mx)).map g).getD j dg)
      = ((pairs.filter (cubeKeep src c mx)).filter (rcKeep src c rc)).map g := by
    intro γ g dg
    exact selectMap (pairs.filter (cubeKeep src c mx)) (dispOf src c) g
      (fun d => normLe rc d) vzero dg
  cases hb : buildInfoDicts keys src.info with
  | error e =>
    rw [extractOne] at h
    rw [hb] at h
    exact Except.noConfusion h
  | ok dd =>
    obtain ⟨d1, d2⟩ := dd
    rw [extractOne] at h
    rw [hb] at h
    rw [Except.ok.injEq] at h
    subst h
    refine ⟨?_, ?_, ?_, rfl, ⟨d1, d2, rfl, rfl⟩, ?_⟩
    · cases cube
      · simp only [Bool.false_eq_true, if_false, emittedPairs]
        rw [hcube (dispOf src c) vzero, hsphere (dispOf src c) vzero,
          List.map_map]
        rfl
      · simp only [if_true, emittedPairs]
        rw [hcube (dispOf src c) vzero, List.map_map]
        rfl
    · cases cube
      · simp only [Bool.false_eq_true, if_false, emittedPairs]
        rw [hcube (fun p => src.symbols.getD p.1 "") "",
          hcube (dispOf src c) vzero,
          hsphere (fun p => src.symbols.getD p.1 "") ""]
      · simp only [if_true, emittedPairs]
        exact hcube (fun p => src.symbols.getD p.1 "") ""
    · cases cube
      · simp only [Bool.false_eq_true, if_false, emittedPairs, List.map_map]
        rw [hcube (dispOf src c) vzero]
        refine mapCongr karr ?_
        intro ka _
        simp only [Function.comp_def]
        rw [hcube (fun p => ka.2.getD p.1 (0 : ℚ)) 0,
          hsphere (fun p => ka.2.getD p.1 (0 : ℚ)) 0]
      · simp only [if_true, emittedPairs, List.map_map]
        refine mapCongr karr ?_
        intro ka _
        simp only [Function.comp_def]
        rw [hcube (fun p => ka.2.getD p.1 (0 : ℚ)) 0]
    · cases cube
      · simp only [Bool.false_eq_true, if_false, emittedPairs]
        rw [hcube (dispOf src c) vzero, hsphere (dispOf src c) vzero,
          List.length_map]
      · simp only [if_true]
        rw [hcube (dispOf src c) vzero, List.length_map]

/-! ### Inversion lemmas for the validation stage and the per-center loop -/

theorem validatedParams_ok (src : SourceAtoms) (rc : ℚ) (cell : NewCell)
    (kt : Option (List String)) (ns : Vec3) (mx : ℚ) (keys : List String)
    (karr : List (String × List ℚ))
    (h : validatedParams src rc cell kt = .ok (ns, mx, keys, karr)) :
    stage1 cell = .ok ns ∧
    (ns.1 = ns.2.1 ∧ ns.2.1 = ns.2.2) ∧
    mx = max3 ns ∧
    ¬(max3 ns > src.cellpar.1 ∨ max3 ns > src.cellpar.2.1 ∨
      max3 ns > src.cellpar.2.2) ∧
    ¬(max3 ns < rc) ∧ ¬(rc * 2 > max3 ns) ∧
    keys = kt.getD [] ∧ getKeyArrays (kt.getD []) src.arrays = .ok karr := by
  rw [validatedParams] at h
  cases h1 : stage1 cell with
  | error e => rw [h1] at h; exact Except.noConfusion h
  | ok cn =>
    rw [h1] at h
    simp only at h
    split_ifs at h with hcq hsz hrc h2rc
    cases hka : getKeyArrays (kt.getD []) src.arrays with
    | error e => rw [hka] at h; exact Except.noConfusion h
    | ok ka =>
      rw [hka] at h
      rw [Except.ok.injEq] at h
      injection h with h1 h2
      injection h2 with h2 h3
      injection h3 with h3 h4
      subst h1; subst h2; subst h3; subst h4
      exact ⟨rfl, hcq, rfl, hsz, hrc, h2rc, rfl, rfl⟩

theorem extractLoop_ok_get (f : Nat → Except ExtractError NewAtoms) :
    ∀ (l : List Nat) (sts : List NewAtoms), extractLoop f l = .ok sts →
      sts.length = l.length ∧
      ∀ k, k < l.length →
        ∃ st, sts.get? k = some st ∧ f (l.getD k 0) = .ok st := by
  intro l
  induction l with
  | nil =>
    intro sts h
    rw [extractLoop, Except.ok.injEq] at h
    subst h
    exact ⟨rfl, fun k hk => absurd hk (by simp)⟩
  | cons c rest ih =>
    intro sts h
    rw [extractLoop] at h
    cases hf : f c with
    | error e => rw [hf] at h; exact Except.noConfusion h
    | ok st =>
      rw [hf] at h
      cases hr : extractLoop f rest with
      | error e => rw [hr] at h; exact Except.noConfusion h
      | ok sts' =>
        rw [hr, Except.ok.injEq] at h
        subst h
        obtain ⟨hlen, hget⟩ := ih sts' hr
        refine ⟨by simp [hlen], ?_⟩
        intro k hk
        cases k with
        | zero => exact ⟨st, rfl, hf⟩
        | succ n =>
          obtain ⟨st', h1, h2⟩ := hget n (by simpa using Nat.lt_of_succ_lt_succ hk)
          exact ⟨st', by simpa using h1, by simpa using h2⟩

theorem extractLoop_ok_mem (f : Nat → Except ExtractError NewAtoms) :
    ∀ (l : List Nat) (sts : List NewAtoms), extractLoop f l = .ok sts →
      ∀ st ∈ sts, ∃ c ∈ l, f c = .ok st := by
  intro l
  induction l with
  | nil =>
    intro sts h
    rw [extractLoop, Except.ok.injEq] at h
    subst h
    intro st hst
    exact absurd hst (by simp)
  | cons c rest ih =>
    intro sts h
    rw [extractLoop] at h
    cases hf : f c with
    | error e => rw [hf] at h; exact Except.noConfusion h
    | ok st0 =>
      rw [hf] at h
      cases hr : extractLoop f rest with
      | error e => rw [hr] at h; exact Except.noConfusion h
      | ok sts' =>
        rw [hr, Except.ok.injEq] at h
        subst h
        intro st hst
        rcases List.mem_cons.mp hst with h1 | h1
        · exact ⟨c, by simp, h1 ▸ hf⟩
        · obtain ⟨c', hc', hfc'⟩ := ih sts' hr st h1
          exact ⟨c', by simp [hc'], hfc'⟩

theorem extractLoop_all_ok (f : Nat → Except ExtractError NewAtoms)
    (hf : ∀ c, ∃ st, f c = .ok st) :
    ∀ l : List Nat, ∃ sts, extractLoop f l = .ok sts := by
  intro l
  induction l with
  | nil => exact ⟨[], rfl⟩
  | cons c rest ih =>
    obtain ⟨st, hst⟩ := hf c
    obtain ⟨sts, hsts⟩ := ih
    exact ⟨st :: sts, by rw [extractLoop, hst, hsts]⟩

theorem extractLoop_error (f : Nat → Except ExtractError NewAtoms) :
    ∀ (l : List Nat) (e : ExtractError), extractLoop f l = .error e →
      ∃ c ∈ l, f c = .error e := by
  intro l
  induction l with
  | nil => intro e h; exact Except.noConfusion h
  | cons c rest ih =>
    intro e h
    rw [extractLoop] at h
    cases hf : f c with
    | error e' =>
      rw [hf] at h
      rw [Except.error.injEq] at h
      exact ⟨c, by simp, h ▸ hf⟩
    | ok st =>
      rw [hf] at h
      cases hr : extractLoop f rest with
      | error e' =>
        rw [hr] at h
        rw [Except.error.injEq] at h
        obtain ⟨c', hc', hfc'⟩ := ih e' hr
        exact ⟨c', by simp [hc'], h ▸ hfc'⟩
      | ok sts' => rw [hr] at h; exact Except.noConfusion h

theorem buildGo_error_kind (info : List (String × InfoVal)) :
    ∀ (bases : List String) (d1 : List (String × InfoVal))
      (d2 : List (String × ℚ)) (e : ExtractError),
      buildGo info bases d1 d2 = .error e →
      e = .keyError ∨ e = .typeError := by
  intro bases
  induction bases with
  | nil => intro d1 d2 e h; exact Except.noConfusion h
  | cons b rest ih =>
    intro d1 d2 e h
    rw [buildGo] at h
    cases hmk : alookup METADATA_KEY info with
    | none =>
      rw [hmk] at h
      rw [Except.error.injEq] at h
      exact Or.inl h.symm
    | some v =>
      rw [hmk] at h
      cases v with
      | val q =>
        rw [Except.error.injEq] at h
        exact Or.inr h.symm
      | dict nd =>
        simp only at h
        split at h
        · exact ih _ _ e h
        · exact ih _ _ e h

theorem extractOne_error_kind (src : SourceAtoms) (rc : ℚ) (ns : Vec3)
    (mx : ℚ) (cell : NewCell) (cube : Bool) (keys : List String)
    (karr : List (String × List ℚ)) (pairs : List NeighborPair) (c : Nat)
    (e : ExtractError)
    (h : extractOne src rc ns mx cell cube keys karr pairs c = .error e) :
    e = .keyError ∨ e = .typeError := by
  rw [extractOne] at h
  cases hb : buildInfoDicts keys src.info with
  | error e' =>
    rw [hb] at h
    rw [Except.error.injEq] at h
    exact h ▸ buildGo_error_kind src.info _ _ _ e' hb
  | ok dd =>
    obtain ⟨d1, d2⟩ := dd
    rw [hb] at h
    exact Except.noConfusion h

theorem getKeyArrays_error_kind (keys : List String)
    (arrays : List (String × List ℚ)) (e : ExtractError)
    (h : getKeyArrays keys arrays = .error e) : e = .keyError := by
  induction keys with
  | nil => exact Except.noConfusion h
  | cons k rest ih =>
    rw [getKeyArrays] at h
    cases hl : alookup k arrays with
    | none =>
      rw [hl] at h
      rw [Except.error.injEq] at h
      exact h.symm
    | some a =>
      rw [hl] at h
      cases hr : getKeyArrays rest arrays with
      | error e' =>
        rw [hr] at h
        rw [Except.error.injEq] at h
        exact ih (h ▸ hr)
      | ok l => rw [hr] at h; exact Except.noConfusion h

/-- Line 43 in full: for every 3×3 matrix the off-diagonal test produces a
six-element boolean array, so numpy's truthiness conversion fails and the
matrix branch never gets past line 43 — independently of the matrix's
entries. -/
theorem stage1_mat (m : Mat3) :
    stage1 (NewCell.mat m) = .error .ambiguousTruthValue := rfl

theorem extract_env_validated_error (src : SourceAtoms) (rc : ℚ)
    (ai : AtomInds) (cell : NewCell) (cube : Bool)
    (kt : Option (List String)) (nl : Nat → List NeighborPair)
    (e : ExtractError) (h : validatedParams src rc cell kt = .error e) :
    extract_env src rc ai cell cube kt nl = .error e := by
  rw [extract_env, h]

theorem extract_env_ok_inv (src : SourceAtoms) (rc : ℚ) (ai : AtomInds)
    (cell : NewCell) (cube : Bool) (kt : Option (List String))
    (nl : Nat → List NeighborPair) (structs : List NewAtoms)
    (h : extract_env src rc ai cell cube kt nl = .ok structs) :
    ∃ ns mx keys karr,
      validatedParams src rc cell kt = .ok (ns, mx, keys, karr) ∧
      extractLoop (fun c => extractOne src rc ns mx cell cube keys karr
        (nl c) c) (normalizeInds ai) = .ok structs := by
  rw [extract_env] at h
  cases hv : validatedParams src rc cell kt with
  | error e => rw [hv] at h; exact Except.noConfusion h
  | ok q =>
    obtain ⟨ns, mx, keys, karr⟩ := q
    rw [hv] at h
    exact ⟨ns, mx, keys, karr, rfl, h⟩

/-! ### Counting and search helpers for the central-atom claims -/

theorem countPFilter {α : Type} (p q : α → Bool) (l : List α) :
    (l.filter q).countP p = l.countP (fun a => p a && q a) := by
  induction l with
  | nil => rfl
  | cons a t ih =>
    by_cases hq : q a
    · by_cases hp : p a <;>
        simp [List.filter_cons, List.countP_cons, hq, hp, ih]
    · simp [List.filter_cons, List.countP_cons, hq, ih]

theorem countPMap {α β : Type} (p : β → Bool) (f : α → β) (l : List α) :
    (l.map f).countP p = l.countP (fun a => p (f a)) := by
  induction l with
  | nil => rfl
  | cons a t ih => simp [List.countP_cons, ih]

theorem countPCongr {α : Type} {p q : α → Bool} :
    ∀ (l : List α), (∀ a ∈ l, p a = q a) → l.countP p = l.countP q := by
  intro l
  induction l with
  | nil => intro _; rfl
  | cons a t ih =>
    intro h
    rw [List.countP_cons, List.countP_cons, h a (by simp),
      ih (fun b hb => h b (by simp [hb]))]

theorem inCube_vzero (half : ℚ) (h : 0 ≤ half) : inCube half vzero = true := by
  simp [inCube, vzero, h]

theorem normLe_vzero (rc : ℚ) (h : 0 ≤ rc) : normLe rc vzero = true := by
  simp [normLe, vzero, h, mul_self_nonneg rc]

theorem coordsAllHalf_eq (half : ℚ) (p : Vec3) :
    coordsAllHalf half p = true ↔ p = (half, half, half) := by
  simp [coordsAllHalf, Prod.ext_iff]

theorem findCentralGo_none (half : ℚ) :
    ∀ (l : List Vec3) (n : Nat),
      (∀ p ∈ l, coordsAllHalf half p = false) →
      findCentralGo half l n = none := by
  intro l
  induction l with
  | nil => intro n _; rfl
  | cons p t ih =>
    intro n h
    rw [findCentralGo, if_neg (by simp [h p (by simp)])]
    exact ih (n + 1) (fun p' hp' => h p' (by simp [hp']))

theorem findCentralGo_sound (half : ℚ) :
    ∀ (l : List Vec3) (n i : Nat), findCentralGo half l n = some i →
      ∃ j p, l.get? j = some p ∧ coordsAllHalf half p = true ∧ i = n + j := by
  intro l
  induction l with
  | nil => intro n i h; exact Option.noConfusion h
  | cons p t ih =>
    intro n i h
    rw [findCentralGo] at h
    by_cases hp : coordsAllHalf half p = true
    · rw [if_pos hp, Option.some.injEq] at h
      exact ⟨0, p, rfl, hp, by omega⟩
    · rw [if_neg hp] at h
      obtain ⟨j, p', h1, h2, h3⟩ := ih (n + 1) i h
      exact ⟨j + 1, p', by simpa using h1, h2, by omega⟩

theorem findCentralGo_count_one (half : ℚ) :
    ∀ (l : List Vec3) (n : Nat), l.countP (coordsAllHalf half) = 1 →
      ∃ j p, findCentralGo half l n = some (n + j) ∧ l.get? j = some p ∧
        coordsAllHalf half p = true := by
  intro l
  induction l with
  | nil => intro n hc; simp [List.countP_nil] at hc
  | cons p t ih =>
    intro n hc
    rw [List.countP_cons] at hc
    by_cases hp : coordsAllHalf half p = true
    · exact ⟨0, p, by rw [findCentralGo, if_pos hp]; rfl, rfl, hp⟩
    · have hc' : t.countP (coordsAllHalf half) = 1 := by
        simpa [hp] using hc
      obtain ⟨j, p', h1, h2, h3⟩ := ih (n + 1) hc'
      refine ⟨j + 1, p', ?_, by simpa using h2, h3⟩
      rw [findCentralGo, if_neg hp, h1]
      exact congrArg some (by omega)

/-! ### C1 -/

/-- C1: the claim says a diagonal 3×3 target cell with three equal diagonal
entries passes the validation and extraction proceeds, while a nonzero
off-diagonal entry triggers the InvalidCellShape error.  The code disagrees
on both counts: the line-43 condition is a six-element boolean array, and
numpy refuses to convert it to a truth value, so every 3×3 matrix — here
the perfectly valid diag(6,6,6), all of whose off-diagonal flags are false —
makes the call raise the ambiguous-truth-value ValueError instead of
proceeding (and instead of the InvalidCellShape error). -/
theorem c1_matrix_validation_bug :
    offDiagNonzeroFlags ⟨(6, 0, 0), (0, 6, 0), (0, 0, 6)⟩ =
      [false, false, false, false, false, false] ∧
    extract_env srcOneAtom 2 (.list [0])
      (NewCell.mat ⟨(6, 0, 0), (0, 6, 0), (0, 0, 6)⟩) false none nlOneAtom
      = .error .ambiguousTruthValue := by
  exact ⟨by decide, rfl⟩

/-! ### C4 -/

/-- C4 counterexample: the diagonal matrix diag(1,2,3) has three unequal
derived side lengths, so per the claim extract_env must fail with
InvalidCellShape; it fails with the numpy ambiguous-truth-value error
instead (the malformed line-43 orthorhombic test fires before any side
length is derived). -/
theorem c4_counterexample_matrix_cell :
    extract_env srcOneAtom 1 (.list [0])
      (NewCell.mat ⟨(1, 0, 0), (0, 2, 0), (0, 0, 3)⟩) false none nlOneAtom
      = .error .ambiguousTruthValue ∧
    ExtractError.ambiguousTruthValue ≠ ExtractError.invalidCellShape := by
  exact ⟨rfl, by decide⟩

/-- C4 (amended): a target cell given as a 3-vector whose three side
lengths are not all equal (exact rational comparison, no tolerance) makes
extract_env fail with the InvalidCellShape error before any extraction, for
every source, rc, center-index choice, flag and neighbor list; a target
cell given as a 3×3 matrix also fails fast for every choice, but with the
numpy ambiguous-truth-value error of the malformed line-43 check instead. -/
theorem c4_noncubic_fails_fast :
    (∀ (src : SourceAtoms) (rc : ℚ) (ai : AtomInds) (cube : Bool)
      (kt : Option (List String)) (nl : Nat → List NeighborPair) (v : Vec3),
      ¬(v.1 = v.2.1 ∧ v.2.1 = v.2.2) →
      extract_env src rc ai (NewCell.vec v) cube kt nl
        = .error .invalidCellShape) ∧
    (∀ (src : SourceAtoms) (rc : ℚ) (ai : AtomInds) (cube : Bool)
      (kt : Option (List String)) (nl : Nat → List NeighborPair) (m : Mat3),
      extract_env src rc ai (NewCell.mat m) cube kt nl
        = .error .ambiguousTruthValue) := by
  constructor
  · intro src rc ai cube kt nl v hv
    apply extract_env_validated_error
    rw [validatedParams]
    simp only [stage1]
    rw [if_pos hv]
  · intro src rc ai cube kt nl m
    apply extract_env_validated_error
    rw [validatedParams, stage1_mat]

/-- Witness for the amended C4 theorem at the concrete non-cubic vector
cell (5, 2, 1). -/
theorem c4_noncubic_fails_fast_witness :
    extract_env srcOneAtom 1 (.list [0]) (NewCell.vec (5, 2, 1)) false none
      nlOneAtom = .error .invalidCellShape :=
  c4_noncubic_fails_fast.1 srcOneAtom 1 (.list [0]) false none nlOneAtom
    (5, 2, 1) (by decide)

/-! ### C3 -/

theorem stage1_error_kind (cell : NewCell) (e : ExtractError)
    (h : stage1 cell = .error e) :
    e = .ambiguousTruthValue ∨ e = .invalidCellShape := by
  cases cell with
  | vec v => exact Except.noConfusion h
  | mat m =>
    rw [stage1_mat] at h
    rw [Except.error.injEq] at h
    exact Or.inl h.symm

theorem validatedParams_cellTooSmall (src : SourceAtoms) (rc : ℚ)
    (cell : NewCell) (kt : Option (List String))
    (h : validatedParams src rc cell kt = .error .cellTooSmall) :
    ∃ ns, stage1 cell = .ok ns ∧ (ns.1 = ns.2.1 ∧ ns.2.1 = ns.2.2) ∧
      (max3 ns > src.cellpar.1 ∨ max3 ns > src.cellpar.2.1 ∨
       max3 ns > src.cellpar.2.2 ∨ max3 ns < rc ∨ rc * 2 > max3 ns) := by
  rw [validatedParams] at h
  cases h1 : stage1 cell with
  | error e =>
    rw [h1] at h
    rw [Except.error.injEq] at h
    rcases stage1_error_kind cell e h1 with rfl | rfl <;>
      exact ExtractError.noConfusion h
  | ok cn =>
    rw [h1] at h
    simp only at h
    by_cases hcq : (cn.1 = cn.2.1 ∧ cn.2.1 = cn.2.2)
    · rw [if_neg (not_not_intro hcq)] at h
      by_cases hsz : (max3 cn > src.cellpar.1 ∨ max3 cn > src.cellpar.2.1 ∨
          max3 cn > src.cellpar.2.2)
      · exact ⟨cn, rfl, hcq, by tauto⟩
      · rw [if_neg hsz] at h
        by_cases hrc : max3 cn < rc
        · exact ⟨cn, rfl, hcq, by tauto⟩
        · rw [if_neg hrc] at h
          by_cases h2rc : rc * 2 > max3 cn
          · exact ⟨cn, rfl, hcq, by tauto⟩
          · rw [if_neg h2rc] at h
            cases hka : getKeyArrays (kt.getD []) src.arrays with
            | error e =>
              rw [hka] at h
              rw [Except.error.injEq] at h
              have := getKeyArrays_error_kind _ _ e hka
              subst this
              exact ExtractError.noConfusion h
            | ok ka => rw [hka] at h; exact Except.noConfusion h
    · rw [if_pos hcq] at h
      rw [Except.error.injEq] at h
      exact ExtractError.noConfusion h

theorem validatedParams_cellTooSmall_of (src : SourceAtoms) (rc : ℚ)
    (kt : Option (List String)) (ns : Vec3)
    (hcq : ns.1 = ns.2.1 ∧ ns.2.1 = ns.2.2)
    (hbad : max3 ns > src.cellpar.1 ∨ max3 ns > src.cellpar.2.1 ∨
      max3 ns > src.cellpar.2.2 ∨ max3 ns < rc ∨ rc * 2 > max3 ns) :
    validatedParams src rc (NewCell.vec ns) kt = .error .cellTooSmall := by
  rw [validatedParams]
  simp only [stage1]
  rw [if_neg (not_not_intro hcq)]
  by_cases h1 : (max3 ns > src.cellpar.1 ∨ max3 ns > src.cellpar.2.1 ∨
      max3 ns > src.cellpar.2.2)
  · rw [if_pos h1]
  · rw [if_neg h1]
    by_cases h2 : max3 ns < rc
    · rw [if_pos h2]
    · rw [if_neg h2]
      have h3 : rc * 2 > max3 ns := by tauto
      rw [if_pos h3]

/-- C3 (amended): extract_env raises CellTooSmall exactly when the target
cell gets past the shape validation (which only a 3-vector with all three
entries equal does; every 3×3 matrix dies earlier in the malformed line-43
check) and at least one size condition of the claim holds: the maximum
target side exceeds one of the source's three cell parameters, or rc
exceeds the maximum side, or 2*rc exceeds it.  Since `rc * 2 > side` is
strict, a request with 2*rc exactly equal to the side passes, as the claim
states. -/
theorem c3_cellTooSmall_iff (src : SourceAtoms) (rc : ℚ) (ai : AtomInds)
    (cell : NewCell) (cube : Bool) (kt : Option (List String))
    (nl : Nat → List NeighborPair) :
    extract_env src rc ai cell cube kt nl = .error .cellTooSmall ↔
    ∃ ns, stage1 cell = .ok ns ∧ (ns.1 = ns.2.1 ∧ ns.2.1 = ns.2.2) ∧
      (max3 ns > src.cellpar.1 ∨ max3 ns > src.cellpar.2.1 ∨
       max3 ns > src.cellpar.2.2 ∨ max3 ns < rc ∨ rc * 2 > max3 ns) := by
  constructor
  · intro h
    rw [extract_env] at h
    cases hv : validatedParams src rc cell kt with
    | error e =>
      rw [hv] at h
      rw [Except.error.injEq] at h
      exact validatedParams_cellTooSmall src rc cell kt (h ▸ hv)
    | ok q =>
      obtain ⟨ns, mx, keys, karr⟩ := q
      rw [hv] at h
      obtain ⟨c, _, hc⟩ := extractLoop_error _ _ _ h
      rcases extractOne_error_kind _ _ _ _ _ _ _ _ _ _ _ hc with h' | h' <;>
        exact ExtractError.noConfusion h'
  · rintro ⟨ns, hs, hcq, hbad⟩
    cases cell with
    | vec v =>
      rw [show stage1 (NewCell.vec v) = .ok v from rfl,
        Except.ok.injEq] at hs
      subst hs
      exact extract_env_validated_error _ _ _ _ _ _ _ _
        (validatedParams_cellTooSmall_of src rc kt v hcq hbad)
    | mat m =>
      rw [stage1_mat] at hs
      exact Except.noConfusion hs

/-- C3 counterexample: for the non-cubic 3-vector cell (3,2,1) and a source
with cell parameters (2,2,2), the claim's size conditions hold (the maximum
target side 3 exceeds the source parameter 2), so per the claim CellTooSmall
must be raised; the call raises InvalidCellShape instead, because the cubic
shape check fires first. -/
theorem c3_counterexample_shape_first :
    (max3 (3, 2, 1) > srcSmall.cellpar.1 ∨ max3 (3, 2, 1) < 1 ∨
      (1 : ℚ) * 2 > max3 (3, 2, 1)) ∧
    extract_env srcSmall 1 (.list [0]) (NewCell.vec (3, 2, 1)) false none
      nlOneAtom ≠ .error .cellTooSmall ∧
    extract_env srcSmall 1 (.list [0]) (NewCell.vec (3, 2, 1)) false none
      nlOneAtom = .error .invalidCellShape := by
  have he : extract_env srcSmall 1 (.list [0]) (NewCell.vec (3, 2, 1)) false
      none nlOneAtom = .error .invalidCellShape := rfl
  refine ⟨by decide, ?_, he⟩
  rw [he]
  simp

/-! ### C9 -/

/-- C9: find_central_atom on a structure in which no atom has all three
coordinates exactly equal to side_size/2 returns Python's None (modelled as
`none`) rather than raising, and whenever it returns an index that index
holds an atom whose coordinates all equal side_size/2. -/
theorem c9_find_central_none_and_sound (config : NewAtoms) (s : ℚ) :
    ((∀ p ∈ config.positions, coordsAllHalf (s / 2) p = false) →
      find_central_atom config s = none) ∧
    (∀ i, find_central_atom config s = some i →
      ∃ p, config.positions.get? i = some p ∧
        coordsAllHalf (s / 2) p = true) := by
  constructor
  · intro h
    exact findCentralGo_none (s / 2) config.positions 0 h
  · intro i h
    obtain ⟨j, p, h1, h2, h3⟩ :=
      findCentralGo_sound (s / 2) config.positions 0 i h
    refine ⟨p, ?_, h2⟩
    rw [h3]
    simpa using h1

/-- Witness for C9 at a concrete structure with no atom at the center of a
side-6 cell. -/
theorem c9_find_central_none_and_sound_witness :
    find_central_atom cfgNoCenter 6 = none :=
  (c9_find_central_none_and_sound cfgNoCenter 6).1 (by
    intro p hp
    simp only [cfgNoCenter, List.mem_cons, List.not_mem_nil, or_false] at hp
    rcases hp with rfl | rfl <;> norm_num [coordsAllHalf])

/-! ### C8 -/

/-- C8: a k-element center-index list yields exactly k extracted structures
in input order — the k-th result is precisely what extracting the k-th
index alone yields — and a bare integer center index is normalized to the
one-element list, making the two calls equal. -/
theorem c8_multi_index (src : SourceAtoms) (rc : ℚ) (l : List Nat)
    (cell : NewCell) (cube : Bool) (kt : Option (List String))
    (nl : Nat → List NeighborPair) (structs : List NewAtoms) :
    (extract_env src rc (.list l) cell cube kt nl = .ok structs →
      structs.length = l.length ∧
      ∀ k, k < l.length → ∃ st, structs.get? k = some st ∧
        extract_env src rc (.list [l.getD k 0]) cell cube kt nl = .ok [st]) ∧
    (∀ i : Nat, extract_env src rc (.single i) cell cube kt nl
      = extract_env src rc (.list [i]) cell cube kt nl) := by
  constructor
  · intro h
    obtain ⟨ns, mx, keys, karr, hv, hl⟩ :=
      extract_env_ok_inv _ _ _ _ _ _ _ _ h
    obtain ⟨hlen, hget⟩ := extractLoop_ok_get _ _ _ hl
    refine ⟨by simpa using hlen, ?_⟩
    intro k hk
    obtain ⟨st, h1, h2⟩ := hget k (by simpa using hk)
    refine ⟨st, h1, ?_⟩
    have h2' : extractOne src rc ns mx cell cube keys karr (nl (l.getD k 0))
        (l.getD k 0) = .ok st := h2
    rw [extract_env, hv]
    show extractLoop _ [l.getD k 0] = .ok [st]
    simp only [extractLoop]
    rw [h2']
  · intro i
    rfl

/-! ### C5 -/

theorem filterCongr {α : Type} {p q : α → Bool} :
    ∀ (l : List α), (∀ a ∈ l, p a = q a) → l.filter p = l.filter q := by
  intro l
  induction l with
  | nil => intro _; rfl
  | cons a t ih =>
    intro h
    rw [List.filter_cons, List.filter_cons, h a (by simp),
      ih (fun b hb => h b (by simp [hb]))]

/-- C5: for a successful call with extract_cube=false, every atom of every
extracted structure lies within rc of the box center (Euclidean norm
comparison, modelled squared) and the fixed-atom constraint covers every
atom; with extract_cube=true, every atom lies in the axis-aligned cube of
half-side max3 v / 2 around the box center, and the constrained index set
is exactly the positions (within the emitted list) whose displacement from
the box center is within rc. -/
theorem c5_sphere_cube_filters (src : SourceAtoms) (rc : ℚ) (v : Vec3)
    (ai : AtomInds) (cube : Bool) (kt : Option (List String))
    (nl : Nat → List NeighborPair) (structs : List NewAtoms)
    (hok : extract_env src rc ai (NewCell.vec v) cube kt nl = .ok structs) :
    ∀ st ∈ structs,
      (cube = false →
        (∀ p ∈ st.positions, normLe rc (p - boxCenter v) = true) ∧
        st.fixedIndices = List.range st.positions.length) ∧
      (cube = true →
        (∀ p ∈ st.positions, inCube (max3 v / 2) (p - boxCenter v) = true) ∧
        st.fixedIndices = (List.range st.positions.length).filter
          (fun j => normLe rc (st.positions.getD j vzero - boxCenter v))) := by
  intro st hst
  obtain ⟨ns, mx, keys, karr, hv, hl⟩ :=
    extract_env_ok_inv _ _ _ _ _ _ _ _ hok
  obtain ⟨vp1, hcq, hmx, _, _, _, _, _⟩ :=
    validatedParams_ok _ _ _ _ _ _ _ _ hv
  have hns : ns = v := by
    rw [show stage1 (NewCell.vec v) = .ok v from rfl, Except.ok.injEq] at vp1
    exact vp1.symm
  subst hns
  subst hmx
  obtain ⟨c, _, hc⟩ := extractLoop_ok_mem _ _ _ hl st hst
  obtain ⟨hpos, _, _, _, _, hfix⟩ :=
    extractOne_ok_fields _ _ _ _ _ _ _ _ _ _ _ hc
  constructor
  · rintro rfl
    constructor
    · intro p hp
      rw [hpos] at hp
      obtain ⟨q, hq, rfl⟩ := List.mem_map.mp hp
      rw [add_sub_cancel_right]
      simp only [emittedPairs, Bool.false_eq_true, if_false] at hq
      have hr := List.of_mem_filter hq
      exact hr
    · rw [hfix]
      simp only [Bool.false_eq_true, if_false]
      rw [hpos, List.length_map]
  · rintro rfl
    constructor
    · intro p hp
      rw [hpos] at hp
      obtain ⟨q, hq, rfl⟩ := List.mem_map.mp hp
      rw [add_sub_cancel_right]
      simp only [emittedPairs, if_true] at hq
      have hr := List.of_mem_filter hq
      exact hr
    · rw [hfix]
      simp only [if_true]
      rw [hpos, List.length_map]
      simp only [emittedPairs, if_true]
      refine filterCongr _ ?_
      intro j hj
      rw [List.mem_range] at hj
      have e1 := getD_map_lt (List.filter (cubeKeep src c (max3 ns)) (nl c))
        (dispOf src c) ((0, (0, 0, 0)) : NeighborPair) vzero j hj
      have e2 := getD_map_lt (List.filter (cubeKeep src c (max3 ns)) (nl c))
        (fun p => dispOf src c p + boxCenter ns)
        ((0, (0, 0, 0)) : NeighborPair) vzero j hj
      simp only [e1, e2, add_sub_cancel_right]

/-! ### Concrete pipeline evaluations shared by the witnesses -/

/-- Evaluation of the spec's concrete scenario: source cell 10, single atom
at the origin, rc 2, target side 6, sphere mode, one transferred key; the
result is one atom at the box center (3,3,3) with the constraint covering
it and the metadata entry under the base name "f" copied. -/
theorem srcOneAtomEval :
    extract_env srcOneAtom 2 (.list [0]) (.vec (6, 6, 6)) false
      (some ["f_1"]) nlOneAtom = .ok [stOneAtom] := by
  norm_num +decide [extract_env, validatedParams, stage1, max3, getKeyArrays,
    alookup, extractLoop, extractOne, dispOf, offsetTimesCell, inCube, normLe,
    buildInfoDicts, buildGo, infoScanOne, aset, strIn, chSub, chStarts,
    rsplitBase, lastUnderscoreSplit, srcOneAtom, nlOneAtom, vzero,
    METADATA_KEY, normalizeInds, List.getD, stOneAtom,
    show List.range 3 = [0, 1, 2] from rfl]

/-- Evaluation of a two-center request on the two-atom source. -/
theorem srcTwoAtomsEval :
    extract_env srcTwoAtoms 3 (.list [0, 1]) (.vec (6, 6, 6)) false none
      nlSelfOnly = .ok [stTwoA, stTwoB] := by
  norm_num +decide [extract_env, validatedParams, stage1, max3, getKeyArrays,
    alookup, extractLoop, extractOne, dispOf, offsetTimesCell, inCube, normLe,
    buildInfoDicts, buildGo, infoScanOne, aset, strIn, chSub, chStarts,
    rsplitBase, lastUnderscoreSplit, srcTwoAtoms, nlSelfOnly, vzero,
    METADATA_KEY, normalizeInds, List.getD, stTwoA, stTwoB,
    show List.range 1 = [0] from rfl]

/-- Witness for C8: the two-element request [0, 1] gives a two-element
result, its entry 1 is what extracting index 1 alone gives, and the bare
integer index 0 is treated as the list [0]. -/
theorem c8_multi_index_witness :
    [stTwoA, stTwoB].length = [0, 1].length ∧
    (∃ st, [stTwoA, stTwoB].get? 1 = some st ∧
      extract_env srcTwoAtoms 3 (.list [1]) (.vec (6, 6, 6)) false none
        nlSelfOnly = .ok [st]) ∧
    extract_env srcTwoAtoms 3 (.single 0) (.vec (6, 6, 6)) false none
      nlSelfOnly
      = extract_env srcTwoAtoms 3 (.list [0]) (.vec (6, 6, 6)) false none
        nlSelfOnly := by
  have h := c8_multi_index srcTwoAtoms 3 [0, 1] (.vec (6, 6, 6)) false none
    nlSelfOnly [stTwoA, stTwoB]
  obtain ⟨h1, h2⟩ := h.1 srcTwoAtomsEval
  exact ⟨h1, h2 1 (by norm_num), h.2 0⟩

/-- Witness for C5 at the concrete scenario in sphere mode: the single
emitted atom is within rc of the box center and the constraint covers the
whole output. -/
theorem c5_sphere_cube_filters_witness :
    (∀ p ∈ stOneAtom.positions,
      normLe 2 (p - boxCenter (6, 6, 6)) = true) ∧
    stOneAtom.fixedIndices = List.range stOneAtom.positions.length := by
  have h := (c5_sphere_cube_filters srcOneAtom 2 (6, 6, 6) (.list [0]) false
    (some ["f_1"]) nlOneAtom [stOneAtom] srcOneAtomEval) stOneAtom (by simp)
  exact h.1 rfl

/-! ### C2 -/

theorem countP_filter_of_imp {α : Type} (p q : α → Bool) (l : List α)
    (h : ∀ a, p a = true → q a = true) :
    (l.filter q).countP p = l.countP p := by
  rw [countPFilter]
  refine countPCongr l ?_
  intro a _
  by_cases hp : p a = true
  · rw [hp, h a hp, Bool.true_and]
  · rw [Bool.not_eq_true] at hp
    rw [hp, Bool.false_and]

/-- Zero-displacement entries always survive both the cube and the sphere
filter (for nonnegative half-side and rc), so their count in the emitted
pairs equals their count in the raw neighbor query. -/
theorem emittedPairs_countP_zero (src : SourceAtoms) (rc mx : ℚ)
    (cube : Bool) (c : Nat) (pairs : List NeighborPair)
    (hmx : 0 ≤ mx / 2) (hrc : 0 ≤ rc) :
    (emittedPairs src rc mx cube c pairs).countP
      (fun p => decide (dispOf src c p = vzero))
    = pairs.countP (fun p => decide (dispOf src c p = vzero)) := by
  have hcube : ∀ a : NeighborPair, (decide (dispOf src c a = vzero)) = true →
      cubeKeep src c mx a = true := by
    intro a ha
    have hz : dispOf src c a = vzero := of_decide_eq_true ha
    rw [cubeKeep, hz]
    exact inCube_vzero _ hmx
  have hrcK : ∀ a : NeighborPair, (decide (dispOf src c a = vzero)) = true →
      rcKeep src c rc a = true := by
    intro a ha
    have hz : dispOf src c a = vzero := of_decide_eq_true ha
    rw [rcKeep, hz]
    exact normLe_vzero _ hrc
  simp only [emittedPairs]
  cases cube
  · simp only [Bool.false_eq_true, if_false]
    rw [countP_filter_of_imp _ _ _ hrcK, countP_filter_of_imp _ _ _ hcube]
  · simp only [if_true]
    rw [countP_filter_of_imp _ _ _ hcube]

theorem coordsAllHalf_decide (half : ℚ) (p : Vec3) :
    coordsAllHalf half p = decide (p = (half, half, half)) := by
  rw [coordsAllHalf]
  exact decide_eq_decide.mpr (by
    constructor
    · rintro ⟨h1, h2, h3⟩
      exact Prod.ext h1 (Prod.ext h2 h3)
    · rintro rfl
      exact ⟨rfl, rfl, rfl⟩)

/-- C2: for every valid request on a cubic 3-vector cell of side s with
positive rc, if the neighbor query for the k-th requested center has
exactly one zero-displacement entry (this is the collaborating ase neighbor
list's guarantee: the self pair is reported once with zero offset, and no
distinct atom or periodic image coincides with the center), then the k-th
extracted structure contains exactly one atom whose position equals
(s/2, s/2, s/2) component-wise exactly, and find_central_atom — scanning in
native order for the first atom all of whose coordinates equal s/2 —
returns that atom's index. -/
theorem c2_central_atom (src : SourceAtoms) (rc s : ℚ) (ai : AtomInds)
    (cube : Bool) (kt : Option (List String)) (nl : Nat → List NeighborPair)
    (structs : List NewAtoms) (k : Nat)
    (hrc : 0 < rc)
    (hok : extract_env src rc ai (NewCell.vec (s, s, s)) cube kt nl
      = .ok structs)
    (hk : k < (normalizeInds ai).length)
    (hctr : ((nl ((normalizeInds ai).getD k 0)).countP
      (fun p => decide
        (dispOf src ((normalizeInds ai).getD k 0) p = vzero))) = 1) :
    ∃ st i, structs.get? k = some st ∧
      st.positions.countP
        (fun p => decide (p = (s / 2, s / 2, s / 2))) = 1 ∧
      st.positions.get? i = some (s / 2, s / 2, s / 2) ∧
      find_central_atom st s = some i := by
  obtain ⟨ns, mx, keys, karr, hv, hl⟩ :=
    extract_env_ok_inv _ _ _ _ _ _ _ _ hok
  obtain ⟨vp1, _, hmx, _, hlt, _, _, _⟩ :=
    validatedParams_ok _ _ _ _ _ _ _ _ hv
  have hns : ns = (s, s, s) := by
    rw [show stage1 (NewCell.vec (s, s, s)) = .ok (s, s, s) from rfl,
      Except.ok.injEq] at vp1
    exact vp1.symm
  subst hns
  subst hmx
  have hmax : max3 (s, s, s) = s := by simp [max3]
  have hs : 0 < s := lt_of_lt_of_le hrc (by rw [← hmax]; exact not_lt.mp hlt)
  obtain ⟨_, hget⟩ := extractLoop_ok_get _ _ _ hl
  obtain ⟨st, h1, h2⟩ := hget k hk
  obtain ⟨hpos, _, _, _, _, _⟩ :=
    extractOne_ok_fields _ _ _ _ _ _ _ _ _ _ _ h2
  have hcount : st.positions.countP
      (fun p => decide (p = (s / 2, s / 2, s / 2))) = 1 := by
    rw [hpos, countPMap]
    have step1 : (emittedPairs src rc (max3 (s, s, s)) cube
        ((normalizeInds ai).getD k 0)
        (nl ((normalizeInds ai).getD k 0))).countP
        (fun q => decide (dispOf src ((normalizeInds ai).getD k 0) q
          + boxCenter (s, s, s) = (s / 2, s / 2, s / 2)))
        = (emittedPairs src rc (max3 (s, s, s)) cube
        ((normalizeInds ai).getD k 0)
        (nl ((normalizeInds ai).getD k 0))).countP
        (fun q => decide
          (dispOf src ((normalizeInds ai).getD k 0) q = vzero)) := by
      refine countPCongr _ ?_
      intro q _
      refine decide_eq_decide.mpr ?_
      have hbox : boxCenter (s, s, s) = (s / 2, s / 2, s / 2) := rfl
      rw [hbox]
      constructor
      · intro hq
        have : dispOf src ((normalizeInds ai).getD k 0) q = 0 :=
          add_left_eq_self.mp hq
        exact this
      · intro hq
        rw [hq]
        show (vzero : Vec3) + _ = _
        rw [show (vzero : Vec3) = 0 from rfl, zero_add]
    rw [step1]
    rw [emittedPairs_countP_zero src rc (max3 (s, s, s)) cube
      ((normalizeInds ai).getD k 0) (nl ((normalizeInds ai).getD k 0))
      (by rw [hmax]; exact div_nonneg hs.le (by norm_num)) hrc.le]
    exact hctr
  have hcount' : st.positions.countP (coordsAllHalf (s / 2)) = 1 := by
    rw [countPCongr st.positions
      (fun p _ => coordsAllHalf_decide (s / 2) p)]
    exact hcount
  obtain ⟨j, p, hfind, hgetj, hcoords⟩ :=
    findCentralGo_count_one (s / 2) st.positions 0 hcount'
  have hp : p = (s / 2, s / 2, s / 2) := (coordsAllHalf_eq _ _).mp hcoords
  refine ⟨st, j, h1, hcount, ?_, ?_⟩
  · rw [hp] at hgetj
    exact hgetj
  · rw [find_central_atom]
    simpa using hfind

/-- Witness for C2 at the concrete scenario: the structure extracted for
center 0 holds exactly one atom at (3, 3, 3) and find_central_atom finds
it. -/
theorem c2_central_atom_witness :
    ∃ st i, [stOneAtom].get? 0 = some st ∧
      st.positions.countP
        (fun p => decide (p = ((6 : ℚ) / 2, (6 : ℚ) / 2, (6 : ℚ) / 2))) = 1 ∧
      st.positions.get? i = some ((6 : ℚ) / 2, (6 : ℚ) / 2, (6 : ℚ) / 2) ∧
      find_central_atom st 6 = some i :=
  c2_central_atom srcOneAtom 2 6 (.list [0]) false (some ["f_1"]) nlOneAtom
    [stOneAtom] 0 (by norm_num) srcOneAtomEval (by decide)
    (by norm_num +decide [dispOf, offsetTimesCell, srcOneAtom, nlOneAtom,
      vzero, normalizeInds, List.countP_cons, List.countP_nil, List.getD,
      Prod.ext_iff])

/-! ### C7 -/

theorem alookup_karr_map (key : String) (pp : List NeighborPair) :
    ∀ l : List (String × List ℚ),
      alookup key (l.map (fun ka =>
        (ka.1, pp.map (fun p => ka.2.getD p.1 (0 : ℚ)))))
      = (alookup key l).map
          (fun arr => pp.map (fun p => arr.getD p.1 (0 : ℚ))) := by
  intro l
  induction l with
  | nil => rfl
  | cons a t ih =>
    obtain ⟨k1, v1⟩ := a
    rw [List.map_cons]
    by_cases h : k1 = key
    · rw [alookup, if_pos h, alookup, if_pos h]
      rfl
    · rw [alookup, if_neg h, alookup, if_neg h]
      exact ih

theorem getKeyArrays_ok_spec :
    ∀ (keys : List String) (arrays karr : List (String × List ℚ)),
      getKeyArrays keys arrays = .ok karr →
      ∀ key ∈ keys, ∃ arr, alookup key arrays = some arr ∧
        alookup key karr = some arr := by
  intro keys
  induction keys with
  | nil =>
    intro arrays karr h key hkey
    exact absurd hkey (by simp)
  | cons k rest ih =>
    intro arrays karr h key hkey
    rw [getKeyArrays] at h
    cases hl : alookup k arrays with
    | none => rw [hl] at h; exact Except.noConfusion h
    | some a =>
      rw [hl] at h
      cases hr : getKeyArrays rest arrays with
      | error e => rw [hr] at h; exact Except.noConfusion h
      | ok l' =>
        rw [hr] at h
        rw [Except.ok.injEq] at h
        subst h
        by_cases hkk : k = key
        · subst hkk
          exact ⟨a, hl, by simp [alookup]⟩
        · rcases List.mem_cons.mp hkey with rfl | hmem
          · exact absurd rfl hkk
          · obtain ⟨arr, ha1, ha2⟩ := ih arrays l' hr key hmem
            exact ⟨arr, ha1, by simp [alookup, hkk, ha2]⟩

/-- C7: for every key in keys_to_transfer and every valid request, the k-th
extracted structure's auxiliary array for that key is the source array
sampled at exactly the source-atom indices of the emitted neighbor pairs,
in emission order, while the positions are the displacements of those same
pairs shifted by the box center: the i-th array entry is the source entry
of the atom that produced the i-th emitted position, with the alignment
preserved through both the cube and the sphere filter. -/
theorem c7_array_alignment (src : SourceAtoms) (rc : ℚ) (v : Vec3)
    (ai : AtomInds) (cube : Bool) (keys : List String)
    (nl : Nat → List NeighborPair) (structs : List NewAtoms) (k : Nat)
    (key : String)
    (hok : extract_env src rc ai (NewCell.vec v) cube (some keys) nl
      = .ok structs)
    (hk : k < (normalizeInds ai).length)
    (hkey : key ∈ keys) :
    ∃ st arr, structs.get? k = some st ∧
      alookup key src.arrays = some arr ∧
      st.positions = (emittedPairs src rc (max3 v) cube
        ((normalizeInds ai).getD k 0)
        (nl ((normalizeInds ai).getD k 0))).map
          (fun p => dispOf src ((normalizeInds ai).getD k 0) p
            + boxCenter v) ∧
      alookup key st.arrays = some ((emittedPairs src rc (max3 v) cube
        ((normalizeInds ai).getD k 0)
        (nl ((normalizeInds ai).getD k 0))).map
          (fun p => arr.getD p.1 (0 : ℚ))) := by
  obtain ⟨ns, mx, keys', karr, hv, hl⟩ :=
    extract_env_ok_inv _ _ _ _ _ _ _ _ hok
  obtain ⟨vp1, _, hmx, _, _, _, hkeys, hka⟩ :=
    validatedParams_ok _ _ _ _ _ _ _ _ hv
  have hns : ns = v := by
    rw [show stage1 (NewCell.vec v) = .ok v from rfl, Except.ok.injEq] at vp1
    exact vp1.symm
  subst hns
  subst hmx
  obtain ⟨_, hget⟩ := extractLoop_ok_get _ _ _ hl
  obtain ⟨st, h1, h2⟩ := hget k hk
  obtain ⟨hpos, _, harr, _, _, _⟩ :=
    extractOne_ok_fields _ _ _ _ _ _ _ _ _ _ _ h2
  obtain ⟨arr, ha1, ha2⟩ :=
    getKeyArrays_ok_spec keys src.arrays karr hka key hkey
  refine ⟨st, arr, h1, ha1, hpos, ?_⟩
  rw [harr, alookup_karr_map key _ karr, ha2]
  rfl

/-- Witness for C7 at the concrete scenario with key "f_1": the single
emitted atom is the center itself (source atom 0), and the emitted array
holds exactly the source entry 7 for it. -/
theorem c7_array_alignment_witness :
    ∃ st arr, [stOneAtom].get? 0 = some st ∧
      alookup "f_1" srcOneAtom.arrays = some arr ∧
      st.positions = (emittedPairs srcOneAtom 2 (max3 (6, 6, 6)) false
        ((normalizeInds (.list [0])).getD 0 0)
        (nlOneAtom ((normalizeInds (.list [0])).getD 0 0))).map
          (fun p => dispOf srcOneAtom ((normalizeInds (.list [0])).getD 0 0) p
            + boxCenter (6, 6, 6)) ∧
      alookup "f_1" st.arrays = some ((emittedPairs srcOneAtom 2
        (max3 (6, 6, 6)) false ((normalizeInds (.list [0])).getD 0 0)
        (nlOneAtom ((normalizeInds (.list [0])).getD 0 0))).map
          (fun p => arr.getD p.1 (0 : ℚ))) :=
  c7_array_alignment srcOneAtom 2 (6, 6, 6) (.list [0]) false ["f_1"]
    nlOneAtom [stOneAtom] 0 "f_1" srcOneAtomEval (by decide) (by decide)

/-! ### C6 -/

theorem alookup_none_of_not_mem {α : Type} (k : String) :
    ∀ l : List (String × α), k ∉ l.map Prod.fst → alookup k l = none := by
  intro l
  induction l with
  | nil => intro _; rfl
  | cons a t ih =>
    obtain ⟨k1, v1⟩ := a
    intro h
    simp only [List.map_cons, List.mem_cons] at h
    push_neg at h
    rw [alookup, if_neg (fun e => h.1 e.symm)]
    exact ih h.2

/-- The top-level scan for one base name: an entry is visible in the
accumulator afterwards iff its key contains the base name as a substring
and occurs in the (unique-keyed) info dictionary, and other keys keep their
accumulator value. -/
theorem alookup_infoScanOne (ok ik : String) :
    ∀ (info acc : List (String × InfoVal)),
      (info.map Prod.fst).Nodup →
      alookup ik (infoScanOne ok info acc) =
        if strIn ok ik = true ∧ (alookup ik info).isSome = true
        then alookup ik info else alookup ik acc := by
  intro info
  induction info with
  | nil =>
    intro acc _
    simp [infoScanOne, alookup]
  | cons a rest ih =>
    obtain ⟨k0, v0⟩ := a
    intro acc hnd
    simp only [List.map_cons, List.nodup_cons] at hnd
    obtain ⟨hk0, hnd'⟩ := hnd
    rw [infoScanOne, ih _ hnd']
    by_cases hik : k0 = ik
    · subst hik
      have hrest : alookup k0 rest = none :=
        alookup_none_of_not_mem k0 rest hk0
      have hcons : alookup k0 ((k0, v0) :: rest) = some v0 := by
        rw [alookup, if_pos rfl]
      rw [hrest, hcons]
      by_cases hs : strIn ok k0 = true
      · rw [if_neg (by simp), if_pos hs, if_pos ⟨hs, rfl⟩]
        exact alookup_aset_self k0 v0 acc
      · rw [if_neg (by simp), if_neg hs, if_neg (fun hc => hs hc.1)]
    · have hcons : alookup ik ((k0, v0) :: rest) = alookup ik rest := by
        rw [alookup, if_neg hik]
      rw [hcons]
      have hacc : alookup ik
          (if strIn ok k0 = true then aset k0 v0 acc else acc)
          = alookup ik acc := by
        by_cases hs : strIn ok k0 = true
        · rw [if_pos hs]
          exact alookup_aset_ne v0 acc (fun e => hik e.symm)
        · rw [if_neg hs]
      rw [hacc]

/-- The full metadata build: the final top-level dictionary holds exactly
the info entries whose key contains some base name as a substring, and the
final nested dictionary holds, under each base name, the entry the source's
nested dictionary stores under exactly that name. -/
theorem buildGo_ok_spec (info : List (String × InfoVal))
    (nd : List (String × ℚ))
    (hnd : (info.map Prod.fst).Nodup)
    (hmk : alookup METADATA_KEY info = some (.dict nd)) :
    ∀ (bases : List String) (d1 D1 : List (String × InfoVal))
      (d2 D2 : List (String × ℚ)),
      buildGo info bases d1 d2 = .ok (D1, D2) →
      (∀ ik, alookup ik D1 =
        if (bases.any (fun b => strIn b ik)) = true ∧
            (alookup ik info).isSome = true
        then alookup ik info else alookup ik d1) ∧
      (∀ b', alookup b' D2 =
        if bases.contains b' = true ∧ (alookup b' nd).isSome = true
        then alookup b' nd else alookup b' d2) := by
  intro bases
  induction bases with
  | nil =>
    intro d1 D1 d2 D2 h
    rw [buildGo, Except.ok.injEq] at h
    injection h with e1 e2
    subst e1
    subst e2
    refine ⟨fun ik => by simp, fun b' => by simp [List.contains]⟩
  | cons b rest ih =>
    intro d1 D1 d2 D2 h
    rw [buildGo] at h
    rw [hmk] at h
    simp only at h
    cases hv : alookup b nd with
    | some v =>
      rw [hv] at h
      obtain ⟨ihd1, ihd2⟩ := ih _ _ _ _ h
      constructor
      · intro ik
        rw [ihd1 ik, alookup_infoScanOne b ik info d1 hnd]
        simp only [List.any_cons, Bool.or_eq_true]
        by_cases h1 : strIn b ik = true <;>
          by_cases h2 : rest.any (fun bb => strIn bb ik) = true <;>
            by_cases h3 : (alookup ik info).isSome = true <;>
              simp [h1, h2, h3]
      · intro b'
        rw [ihd2 b']
        by_cases hb : b' = b
        · subst hb
          rw [alookup_aset_self, hv]
          by_cases hc : rest.contains b' = true <;>
            simp [hc, List.contains_cons, hv]
        · rw [alookup_aset_ne v d2 hb]
          have hcc : (b :: rest).contains b' = rest.contains b' := by
            simp [List.contains_cons, hb]
          rw [hcc]
    | none =>
      rw [hv] at h
      obtain ⟨ihd1, ihd2⟩ := ih _ _ _ _ h
      constructor
      · intro ik
        rw [ihd1 ik, alookup_infoScanOne b ik info d1 hnd]
        simp only [List.any_cons, Bool.or_eq_true]
        by_cases h1 : strIn b ik = true <;>
          by_cases h2 : rest.any (fun bb => strIn bb ik) = true <;>
            by_cases h3 : (alookup ik info).isSome = true <;>
              simp [h1, h2, h3]
      · intro b'
        rw [ihd2 b']
        by_cases hb : b' = b
        · subst hb
          rw [hv]
          by_cases hc : rest.contains b' = true <;>
            simp [hc, List.contains_cons, hv]
        · have hcc : (b :: rest).contains b' = rest.contains b' := by
            simp [List.contains_cons, hb]
          rw [hcc]

/-- C6 (amended): the metadata dictionary of every extracted structure is
built from the requested keys' base names as follows — an entry of the
source's top-level info dictionary is copied iff its key contains some base
name as a substring (the claim's substring scan, confirmed for the
top-level part), while the nested metadata sub-dictionary contributes an
entry per base name only when the base name occurs in it as an exact key
(Python dict membership, not a substring scan), stored under the base name;
the output contains nothing else apart from the reserved key itself. -/
theorem c6_metadata_dicts (src : SourceAtoms) (rc : ℚ) (ai : AtomInds)
    (cell : NewCell) (cube : Bool) (keys : List String)
    (nl : Nat → List NeighborPair) (structs : List NewAtoms)
    (nested : List (String × ℚ)) (st : NewAtoms)
    (hnd : (src.info.map Prod.fst).Nodup)
    (hmk : alookup METADATA_KEY src.info = some (.dict nested))
    (hok : extract_env src rc ai cell cube (some keys) nl = .ok structs)
    (hst : st ∈ structs) :
    ∃ d2, alookup METADATA_KEY st.info = some (.dict d2) ∧
      (∀ b, alookup b d2 =
        if (keys.map rsplitBase).contains b = true
        then alookup b nested else none) ∧
      (∀ ik, ik ≠ METADATA_KEY →
        alookup ik st.info =
          if ((keys.map rsplitBase).any (fun b => strIn b ik)) = true
          then alookup ik src.info else none) := by
  obtain ⟨ns, mx, keys', karr, hv, hl⟩ :=
    extract_env_ok_inv _ _ _ _ _ _ _ _ hok
  obtain ⟨_, _, _, _, _, _, hkeys, _⟩ :=
    validatedParams_ok _ _ _ _ _ _ _ _ hv
  obtain ⟨c, _, hc⟩ := extractLoop_ok_mem _ _ _ hl st hst
  obtain ⟨_, _, _, _, hinfo, _⟩ :=
    extractOne_ok_fields _ _ _ _ _ _ _ _ _ _ _ hc
  obtain ⟨d1, d2, hbuild, hstinfo⟩ := hinfo
  rw [hkeys] at hbuild
  have hbuild' : buildGo src.info (keys.map rsplitBase) [] []
      = .ok (d1, d2) := hbuild
  obtain ⟨hd1, hd2⟩ := buildGo_ok_spec src.info nested hnd hmk
    (keys.map rsplitBase) [] d1 [] d2 hbuild'
  refine ⟨d2, ?_, ?_, ?_⟩
  · rw [hstinfo]
    exact alookup_aset_self METADATA_KEY (.dict d2) d1
  · intro b
    rw [hd2 b]
    cases hn : alookup b nested with
    | some v =>
      by_cases hc1 : (keys.map rsplitBase).contains b = true
      · rw [if_pos ⟨hc1, rfl⟩, if_pos hc1]
      · rw [if_neg (fun hx => hc1 hx.1), if_neg hc1]
        rfl
    | none =>
      rw [if_neg (by simp)]
      by_cases hc1 : (keys.map rsplitBase).contains b = true <;>
        simp [hc1, alookup]
  · intro ik hik
    rw [hstinfo, alookup_aset_ne _ _ hik, hd1 ik]
    cases hn : alookup ik src.info with
    | some v =>
      by_cases hc1 :
          ((keys.map rsplitBase).any (fun b => strIn b ik)) = true
      · rw [if_pos ⟨hc1, rfl⟩, if_pos hc1]
      · rw [if_neg (fun hx => hc1 hx.1), if_neg hc1]
        rfl
    | none =>
      rw [if_neg (by simp)]
      by_cases hc1 :
          ((keys.map rsplitBase).any (fun b => strIn b ik)) = true <;>
        simp [hc1, alookup]

/-- C6 counterexample: with one requested key "foo_1" (base name "foo") and
a source whose nested metadata holds the key "foobar", the claim's
substring scan would copy the entry ("foo" is a substring of "foobar"), but
the build copies nothing: the nested lookup is by exact membership of the
base name. -/
theorem c6_counterexample_nested_substring :
    strIn "foo" "foobar" = true ∧
    specNestedScan ["foo"] [("foobar", 5)] = [("foobar", 5)] ∧
    buildInfoDicts ["foo_1"] [(METADATA_KEY, InfoVal.dict [("foobar", 5)])]
      = .ok ([], []) := by
  refine ⟨by decide, by decide, by decide⟩

/-- Witness for C6 at the concrete scenario: requested key "f_1", base name
"f"; the nested dictionary entry under "f" is copied, and no top-level key
of the source contains "f". -/
theorem c6_metadata_dicts_witness :
    ∃ d2, alookup METADATA_KEY stOneAtom.info = some (.dict d2) ∧
      (∀ b, alookup b d2 =
        if ((["f_1"].map rsplitBase).contains b) = true
        then alookup b [("f", (3 : ℚ))] else none) ∧
      (∀ ik, ik ≠ METADATA_KEY →
        alookup ik stOneAtom.info =
          if ((["f_1"].map rsplitBase).any (fun b => strIn b ik)) = true
          then alookup ik srcOneAtom.info else none) :=
  c6_metadata_dicts srcOneAtom 2 (.list [0]) (.vec (6, 6, 6)) false ["f_1"]
    nlOneAtom [stOneAtom] [("f", 3)] stOneAtom (by decide) rfl
    srcOneAtomEval (by simp)

/-! ### C10 -/

theorem buildInfoDicts_keyError (k : String) (rest : List String)
    (info : List (String × InfoVal))
    (hmk : alookup METADATA_KEY info = none) :
    buildInfoDicts (k :: rest) info = .error .keyError := by
  rw [buildInfoDicts]
  simp only [List.map_cons]
  rw [buildGo, hmk]

theorem extractOne_buildInfo_error (src : SourceAtoms) (rc : ℚ) (ns : Vec3)
    (mx : ℚ) (cell : NewCell) (cube : Bool) (keys : List String)
    (karr : List (String × List ℚ)) (pairs : List NeighborPair) (c : Nat)
    (e : ExtractError) (h : buildInfoDicts keys src.info = .error e) :
    extractOne src rc ns mx cell cube keys karr pairs c = .error e := by
  rw [extractOne, h]

theorem extractLoop_head_error (f : Nat → Except ExtractError NewAtoms)
    (c : Nat) (rest : List Nat) (e : ExtractError) (h : f c = .error e) :
    extractLoop f (c :: rest) = .error e := by
  rw [extractLoop, h]

/-- With keys_to_transfer = None the validation stage can only fail with a
shape or size error, never a KeyError. -/
theorem validatedParams_error_kind (src : SourceAtoms) (rc : ℚ)
    (cell : NewCell) (e : ExtractError)
    (h : validatedParams src rc cell none = .error e) : e ≠ .keyError := by
  intro hke
  subst hke
  rw [validatedParams] at h
  cases h1 : stage1 cell with
  | error e' =>
    rw [h1] at h
    rw [Except.error.injEq] at h
    rcases stage1_error_kind cell e' h1 with rfl | rfl <;>
      exact ExtractError.noConfusion h
  | ok cn =>
    rw [h1] at h
    simp only at h
    by_cases hcq : (cn.1 = cn.2.1 ∧ cn.2.1 = cn.2.2)
    · rw [if_neg (not_not_intro hcq)] at h
      by_cases hsz : (max3 cn > src.cellpar.1 ∨ max3 cn > src.cellpar.2.1 ∨
          max3 cn > src.cellpar.2.2)
      · rw [if_pos hsz] at h
        rw [Except.error.injEq] at h
        exact ExtractError.noConfusion h
      · rw [if_neg hsz] at h
        by_cases hrc : max3 cn < rc
        · rw [if_pos hrc] at h
          rw [Except.error.injEq] at h
          exact ExtractError.noConfusion h
        · rw [if_neg hrc] at h
          by_cases h2rc : rc * 2 > max3 cn
          · rw [if_pos h2rc] at h
            rw [Except.error.injEq] at h
            exact ExtractError.noConfusion h
          · rw [if_neg h2rc] at h
            exact Except.noConfusion h
    · rw [if_pos hcq] at h
      rw [Except.error.injEq] at h
      exact ExtractError.noConfusion h

/-- With no transferred keys the per-center body cannot fail: the empty
base-name loop leaves both new dictionaries empty and raises nothing. -/
theorem extractOne_keys_nil_ok (src : SourceAtoms) (rc : ℚ) (ns : Vec3)
    (mx : ℚ) (cell : NewCell) (cube : Bool)
    (karr : List (String × List ℚ)) (pairs : List NeighborPair) (c : Nat) :
    ∃ st, extractOne src rc ns mx cell cube [] karr pairs c = .ok st :=
  ⟨_, rfl⟩

/-- C10 (amended): (i) the reserved-key read sits inside the per-center
loop, so it takes a non-empty keys_to_transfer AND at least one requested
center index for a validated request against a source without the reserved
metadata key to raise KeyError; (ii) with keys_to_transfer = None the call
never raises KeyError (no reserved-key access happens); (iii) every
extracted structure's info dictionary carries the reserved key, mapped to
the filtered (possibly empty) nested dictionary. -/
theorem c10_reserved_key_access :
    (∀ (src : SourceAtoms) (rc : ℚ) (ai : AtomInds) (cell : NewCell)
      (cube : Bool) (keys : List String) (nl : Nat → List NeighborPair)
      (ns : Vec3) (mx : ℚ) (keys2 : List String)
      (karr : List (String × List ℚ)),
      keys ≠ [] → normalizeInds ai ≠ [] →
      validatedParams src rc cell (some keys) = .ok (ns, mx, keys2, karr) →
      alookup METADATA_KEY src.info = none →
      extract_env src rc ai cell cube (some keys) nl
        = .error .keyError) ∧
    (∀ (src : SourceAtoms) (rc : ℚ) (ai : AtomInds) (cell : NewCell)
      (cube : Bool) (nl : Nat → List NeighborPair),
      extract_env src rc ai cell cube none nl ≠ .error .keyError) ∧
    (∀ (src : SourceAtoms) (rc : ℚ) (ai : AtomInds) (cell : NewCell)
      (cube : Bool) (kt : Option (List String))
      (nl : Nat → List NeighborPair) (structs : List NewAtoms)
      (st : NewAtoms),
      extract_env src rc ai cell cube kt nl = .ok structs → st ∈ structs →
      ∃ d, alookup METADATA_KEY st.info = some (.dict d)) := by
  refine ⟨?_, ?_, ?_⟩
  · intro src rc ai cell cube keys nl ns mx keys2 karr hkeys hinds hv hmk
    rw [extract_env, hv]
    obtain ⟨c, rest, hcr⟩ := List.exists_cons_of_ne_nil hinds
    rw [hcr]
    obtain ⟨k, krest, hkk⟩ := List.exists_cons_of_ne_nil hkeys
    obtain ⟨_, _, _, _, _, _, hkeys2, _⟩ :=
      validatedParams_ok _ _ _ _ _ _ _ _ hv
    have hbuild : buildInfoDicts keys2 src.info = .error .keyError := by
      rw [hkeys2]
      show buildInfoDicts keys src.info = _
      rw [hkk]
      exact buildInfoDicts_keyError k krest src.info hmk
    exact extractLoop_head_error _ c rest _
      (extractOne_buildInfo_error _ _ _ _ _ _ _ _ _ _ _ hbuild)
  · intro src rc ai cell cube nl h
    rw [extract_env] at h
    cases hv : validatedParams src rc cell none with
    | error e =>
      rw [hv] at h
      rw [Except.error.injEq] at h
      exact validatedParams_error_kind src rc cell e hv h
    | ok q =>
      obtain ⟨ns, mx, keys2, karr⟩ := q
      rw [hv] at h
      simp only at h
      obtain ⟨_, _, _, _, _, _, hkeys2, _⟩ :=
        validatedParams_ok _ _ _ _ _ _ _ _ hv
      have hkeys2' : keys2 = [] := hkeys2
      subst hkeys2'
      obtain ⟨sts, hsts⟩ := extractLoop_all_ok _
        (fun c => extractOne_keys_nil_ok src rc ns mx cell cube karr
          (nl c) c) (normalizeInds ai)
      rw [hsts] at h
      exact Except.noConfusion h
  · intro src rc ai cell cube kt nl structs st hok hst
    obtain ⟨ns, mx, keys, karr, hv, hl⟩ :=
      extract_env_ok_inv _ _ _ _ _ _ _ _ hok
    obtain ⟨c, _, hc⟩ := extractLoop_ok_mem _ _ _ hl st hst
    obtain ⟨_, _, _, _, hinfo, _⟩ :=
      extractOne_ok_fields _ _ _ _ _ _ _ _ _ _ _ hc
    obtain ⟨d1, d2, _, hstinfo⟩ := hinfo
    refine ⟨d2, ?_⟩
    rw [hstinfo]
    exact alookup_aset_self METADATA_KEY (.dict d2) d1

/-- Witness for C10 (part i) at a concrete validated request with one key,
one center and no reserved metadata entry: KeyError. -/
theorem c10_reserved_key_access_witness :
    extract_env srcNoMeta 2 (.list [0]) (.vec (6, 6, 6)) false
      (some ["f_1"]) nlOneAtom = .error .keyError :=
  c10_reserved_key_access.1 srcNoMeta 2 (.list [0]) (.vec (6, 6, 6)) false
    ["f_1"] nlOneAtom (6, 6, 6) 6 ["f_1"] [("f_1", [7])] (by decide)
    (by decide)
    (by norm_num +decide [validatedParams, stage1, max3, getKeyArrays,
      alookup, srcNoMeta]) rfl

/-- C10 counterexample: keys_to_transfer is non-empty and the reserved key
is absent from the source's info, yet with an empty center-index list the
call returns ok [] — the reserved key is not "unconditionally" read when
keys_to_transfer is non-empty, because the access sits inside the
per-center loop. -/
theorem c10_counterexample_no_centers :
    (["f_1"] : List String) ≠ [] ∧
    alookup METADATA_KEY srcNoMeta.info = none ∧
    extract_env srcNoMeta 2 (.list []) (.vec (6, 6, 6)) false
      (some ["f_1"]) nlOneAtom = .ok [] := by
  refine ⟨by decide, rfl, ?_⟩
  norm_num +decide [extract_env, validatedParams, stage1, max3, getKeyArrays,
    alookup, extractLoop, srcNoMeta, normalizeInds]
